import Mathlib

/-!
Verification of the prototype storage engine (`evennia/prototypes/prototypes.py`):
a shallow embedding of its value model, protfunc string rewriting, module-prototype
loading, search/merge, CRUD gateway and recursive prototype validation, together
with theorems settling the specified properties.

Python 2 semantics of the source are modelled where observable: string values have
no `__iter__` (so `is_iter` is false on them), and `for`-loop variables at module
level leak into the module's global namespace.
-/

namespace EvenniaProto

/-! ## Python value model

Prototype attribute values as they occur in this module: strings, integers,
callables (identified by an index, applied through an explicitly supplied
application function, since the Python callables themselves are opaque), and
ordered sequences (Python lists/tuples are not distinguished here).
-/

inductive PyVal where
  | str (s : String)
  | int (n : Int)
  | callable (fid : Nat)
  | list (vs : List PyVal)
  | pydict (kvs : List (PyVal × PyVal))

/-- A Python dict with string keys, as used for prototypes (`{key: value, ...}`). -/
abbrev PDict := List (String × PyVal)

/-- `d.get(k)`: first binding of `k`, if any. -/
def pget (d : PDict) (k : String) : Option PyVal :=
  (d.find? (fun kv => kv.1 == k)).map (·.2)

/-- `d.update(new)` viewed through lookups: bindings of `new` shadow those of `d`. -/
def pupdate (d new : PDict) : PDict :=
  d.filter (fun kv => (pget new kv.1).isNone) ++ new

/-- `d[k] = v` (a one-key update). -/
def pset (d : PDict) (k : String) (v : PyVal) : PDict :=
  pupdate d [(k, v)]

/-- Python truthiness of a value: empty string, zero, empty list and empty
dict are falsy. -/
def pyTruthy : PyVal → Bool
  | .str s => !(s == "")
  | .int n => !(n == 0)
  | .callable _ => true
  | .list vs => !vs.isEmpty
  | .pydict kvs => !kvs.isEmpty

mutual

/-- Python `str()` of a value. String and integer forms are exact; the textual
form chosen for a callable stands in for CPython's `<function ... at 0x...>`
(some non-literal text), and sequences and mappings render in bracketed
form. -/
def pyStr : PyVal → String
  | .str s => s
  | .int n => toString n
  | .callable fid => "<callable " ++ toString fid ++ ">"
  | .list vs => "[" ++ pyStrList vs ++ "]"
  | .pydict kvs => "\x7b" ++ pyStrPairs kvs ++ "\x7d"

/-- Comma-joined rendering of a sequence's elements. -/
def pyStrList : List PyVal → String
  | [] => ""
  | [v] => pyStr v
  | v :: rest => pyStr v ++ ", " ++ pyStrList rest

/-- Comma-joined rendering of a mapping's entries. -/
def pyStrPairs : List (PyVal × PyVal) → String
  | [] => ""
  | [(k, v)] => pyStr k ++ ": " ++ pyStr v
  | (k, v) :: rest => pyStr k ++ ": " ++ pyStr v ++ ", " ++ pyStrPairs rest

end

/-- `utils.is_iter` under Python 2: lists/tuples *and dicts* have `__iter__`;
strings, numbers and function objects do not. -/
def isIter : PyVal → Bool
  | .list _ => true
  | .pydict _ => true
  | _ => false

/-- `utils.make_iter`: an iterable is kept (iterating a dict yields its keys),
anything else is wrapped into a one-element list. -/
def makeIter : PyVal → List PyVal
  | .list vs => vs
  | .pydict kvs => kvs.map (fun kv => kv.1)
  | v => [v]

/-- Association-list lookup used for the Python dict registries keyed by string. -/
def lookupStr {α : Type} (l : List (String × α)) (k : String) : Option α :=
  (l.find? (fun kv => kv.1 == k)).map (·.2)

/-- Python substring test `needle in hay` on character lists. -/
def listContains (needle hay : List Char) : Bool :=
  (List.range (hay.length + 1)).any (fun i => needle.isPrefixOf (hay.drop i))

/-- Python `needle in hay` on strings. -/
def strContains (hay needle : String) : Bool :=
  listContains needle.data hay.data

/-- Python `s.lower()` (ASCII letters, which is all the source's key handling
distinguishes). -/
def strLower (s : String) : String :=
  ⟨s.data.map Char.toLower⟩

mutual

/-- Python `==` between prototype values (used for `set()` deduplication and
mapping lookup; mapping equality is compared entrywise here, which agrees with
Python on the order-preserving stores this model builds). -/
def pyBeq : PyVal → PyVal → Bool
  | .str a, .str b => a == b
  | .int a, .int b => a == b
  | .callable a, .callable b => a == b
  | .list a, .list b => pyBeqList a b
  | .pydict a, .pydict b => pyBeqPairs a b
  | _, _ => false

/-- Elementwise `pyBeq` on sequences. -/
def pyBeqList : List PyVal → List PyVal → Bool
  | [], [] => true
  | x :: xs, y :: ys => pyBeq x y && pyBeqList xs ys
  | _, _ => false

/-- Entrywise `pyBeq` on mapping entries. -/
def pyBeqPairs : List (PyVal × PyVal) → List (PyVal × PyVal) → Bool
  | [], [] => true
  | (k1, v1) :: xs, (k2, v2) :: ys => pyBeq k1 k2 && pyBeq v1 v2 && pyBeqPairs xs ys
  | _, _ => false

end

/-- Python `d[k]` lookup on a mapping value (first binding wins). -/
def lookupPy (kvs : List (PyVal × PyVal)) (k : PyVal) : Option PyVal :=
  (kvs.find? (fun kv => pyBeq kv.1 k)).map (·.2)

/-! ## `_RE_DBREF` rewriting

`_RE_DBREF = re.compile(r"(?<!\$obj\()(#[0-9]+)")` and the substitution
`_RE_DBREF.sub("$obj(\\1)", value)` (line 95): every `#<digits>` token not
immediately preceded by the literal text `$obj(` is wrapped into
`$obj(#<digits>)`.
-/

/-- One left-to-right scan of the original character list, as `re.sub` performs
it.  `prev` holds the characters of the *original* string before the current
scan position, most recent first: the negative lookbehind `(?<!\$obj\()`
examines the original text, so `prev` starting with the reversal of `$obj(`
blocks a match.  A match consumes `#` plus a maximal digit run (`#[0-9]+` is
greedy) and is emitted as `$obj(` match `)`; `inTok = true` means the scan is
inside the digit run of a match whose `$obj(#` has been emitted, so the first
non-digit position (or the end) closes it with `)` and is then scanned as
usual. -/
def dbrefScan (inTok : Bool) (prev : List Char) : List Char → List Char
  | [] => if inTok then [')'] else []
  | c :: rest =>
    if inTok && c.isDigit then
      c :: dbrefScan true (c :: prev) rest
    else
      (if inTok then [')'] else []) ++
      (if c == '#' && (match rest with | d :: _ => d.isDigit | [] => false)
          && !("(jbo$".data.isPrefixOf prev) then
        "$obj(#".data ++ dbrefScan true (c :: prev) rest
      else
        c :: dbrefScan false (c :: prev) rest)

/-- The full substitution on a string. -/
def dbrefSub (s : String) : String :=
  ⟨dbrefScan false [] s.data⟩

/-- `#[0-9]+` is greedy: a digit run is a complete match only when the text
after it does not start with another digit.  This side condition delimits a
token in the statements below. -/
def headNotDigit : List Char → Bool
  | [] => true
  | c :: _ => !c.isDigit

/-! ## `protfunc_parser` (lines 56-110, non-testing path)

The embedded-function interpreter `inlinefuncs.parse_inlinefunc` and the
literal decoder `ast.literal_eval` live outside this module and are passed in
as functions.  `litEval s = none` models `literal_eval` raising (any failure
leaves `result` holding the interpreter's string).  Note that the source
coerces every non-string input to a string with
`to_str(value, force_string=True)` before scanning (lines 89-90).
-/

def protfuncParser (parseInline : String → String) (litEval : String → Option PyVal)
    (value : PyVal) : PyVal :=
  let s := match value with
    | .str s => s
    | v => pyStr v
  let s := dbrefSub s
  let r := parseInline s
  match litEval r with
  | some v => v
  | none => .str r

/-! ## `init_spawn_value` (lines 192-217)

Callables are applied through `app : fid → args → result` since the Python
callables themselves are opaque.

A parsed value can make the function raise rather than return: when
`protfunc_parser` yields a non-empty dict (`literal_eval` of a dict literal),
Python 2 dicts pass `is_iter` (they have an `__iter__` attribute), so line 213
evaluates `value[0]`.  On a dict this is a key lookup: if the dict has no key
`0` it raises `KeyError`; if key `0` maps to a callable, line 215's `value[1:]`
slices the dict and raises `TypeError` (`unhashable type: slice`).  Only a
dict whose key `0` exists and is non-callable (or an empty, falsy dict)
reaches the `else` branch and is returned through the validator unchanged.
`SpawnOutcome` makes these escaping exceptions explicit. -/

inductive SpawnOutcome where
  | ok (v : PyVal)
  | keyError
  | typeError

def initSpawnValue (parseInline : String → String) (litEval : String → Option PyVal)
    (app : Nat → List PyVal → PyVal) (validator : Option (PyVal → PyVal))
    (value : PyVal) : SpawnOutcome :=
  let value := protfuncParser parseInline litEval value
  let vd := validator.getD id
  match value with
  | .callable fid => .ok (vd (app fid []))
  | .list (v0 :: rest) =>
    match v0 with
    | .callable fid => .ok (vd (app fid rest))  -- value[0](*make_iter(value[1:]))
    | _ => .ok (vd (.list (v0 :: rest)))
  | .pydict kvs =>
    if kvs.isEmpty then .ok (vd (.pydict kvs))  -- empty dict is falsy: else branch
    else
      match lookupPy kvs (.int 0) with
      | none => .keyError                       -- value[0] misses: KeyError
      | some (.callable _) => .typeError        -- value[1:] slices a dict: TypeError
      | some _ => .ok (vd (.pydict kvs))
  | v => .ok (vd v)

/-! ## Module-prototype loading (lines 222-238)

Builds `_MODULE_PROTOTYPES` (lower-cased key → normalized prototype dict) and
`_MODULE_PROTOTYPE_MODULES` (module-global variable name → module path).  Under
Python 2 the loop variable `prototype_key` of both line 225's list
comprehension and line 230's `for` loop leaks into the module's global
namespace; `leaked` records its final value (`none` when no module defined any
prototype, in which case the global stays undefined).

The model's per-module input holds the dict-valued module globals (the source's
`if prot and isinstance(prot, dict)` drops the rest before any step observable
here).
-/

structure Globals where
  registry : List (String × PDict)
  moduleOf : List (String × String)
  leaked : Option String

/-- Python dict assignment `d[k] = v`: replaces in place or appends. -/
def dictInsert {α : Type} (d : List (String × α)) (k : String) (v : α) :
    List (String × α) :=
  if (lookupStr d k).isSome then
    d.map (fun kv => if kv.1 == k then (k, v) else kv)
  else d ++ [(k, v)]

/-- `list(set(...))` with the model fixing the (unspecified) iteration order to
first occurrences; `seen` accumulates the values already emitted. -/
def dedupFirstAux (seen : List PyVal) : List PyVal → List PyVal
  | [] => []
  | v :: rest =>
    if seen.any (fun w => pyBeq w v) then dedupFirstAux seen rest
    else v :: dedupFirstAux (v :: seen) rest

/-- `list(set(...))` (first-occurrence order). -/
def dedupFirst (l : List PyVal) : List PyVal :=
  dedupFirstAux [] l

/-- The meta-field normalization of one module prototype (lines 231-237);
`none` when the declared `prototype_key` is not a string (`.lower()` would
raise `AttributeError` in the source). -/
def normalizeModProto (modName varname : String) (prot : PDict) :
    Option (String × PDict) :=
  let keyRaw : Option String := match pget prot "prototype_key" with
    | some (.str s) => some s
    | some _ => none
    | none => some varname
  match keyRaw with
  | none => none
  | some s =>
    let actual := strLower s
    let tags := dedupFirst
      (makeIter ((pget prot "prototype_tags").getD (.list [])) ++ [.str "module"])
    some (actual, pupdate prot
      [("prototype_key", .str actual),
       ("prototype_desc", (pget prot "prototype_desc").getD (.str modName)),
       ("prototype_locks", (pget prot "prototype_locks").getD
          (.str "use:all();edit:false()")),
       ("prototype_tags", .list tags)])

/-- The `for prototype_key, prot in prots` loop of lines 230-238: normalize
each prototype, store it under its lower-cased key, and leak the loop
variable.  A non-string declared key aborts the import (`AttributeError`),
modelled as `none`. -/
def loadProts (modName : String) (g : Globals) :
    List (String × PDict) → Option Globals
  | [] => some g
  | p :: rest =>
    match normalizeModProto modName p.1 p.2 with
    | none => none
    | some (actual, prot') =>
      loadProts modName
        { g with registry := dictInsert g.registry actual prot',
                 leaked := some p.1 } rest

/-- Load one module's prototypes into the global state. -/
def loadModule (g : Globals) (modName : String)
    (glbls : List (String × PDict)) : Option Globals :=
  let prots := glbls.filter (fun p => !p.2.isEmpty)
  -- line 225's list comprehension leaks its loop variable over all iterated items
  let leaked0 := match glbls.getLast? with
    | some p => some p.1
    | none => g.leaked
  let moduleOf1 := prots.foldl (fun m p => dictInsert m p.1 modName) g.moduleOf
  loadProts modName { registry := g.registry, moduleOf := moduleOf1, leaked := leaked0 }
    prots

/-- The module-level `for mod in settings.PROTOTYPE_MODULES` loop, continued
from a given state. -/
def loadModulesFrom (g : Globals) :
    List (String × List (String × PDict)) → Option Globals
  | [] => some g
  | m :: rest =>
    match loadModule g m.1 m.2 with
    | none => none
    | some g' => loadModulesFrom g' rest

/-- Load a list of `(module path, module globals)` inputs, as performed when
the module is first imported, starting from empty registries. -/
def loadModules (mods : List (String × List (String × PDict))) : Option Globals :=
  loadModulesFrom { registry := [], moduleOf := [], leaked := none } mods

/-! ## Db-stored prototypes and `search_prototype` (lines 368-436) -/

/-- One `DbPrototype` script record: its `db_key`, its Tag objects (stored as
`(key, category)` tuples) and the `prototype` Attribute.  The script's `desc`
and lock storage are not read by any modelled operation and are omitted. -/
structure DbRecord where
  db_key : String
  rtags : List PyVal
  prototype : PDict

/-- Module-side tag filtering (lines 393-397): keep prototypes whose tag set
intersects the requested tags. -/
def moduleTagFilter (registry : List (String × PDict)) (ts : List String) :
    List (String × PDict) :=
  registry.filter (fun kp =>
    match pget kp.2 "prototype_tags" with
    | some (.list tv) => tv.any (fun t => match t with
        | .str s => ts.contains s
        | _ => false)
    | _ => false)

/-- Module-side key matching (lines 400-407): an exact hit short-circuits,
otherwise case-sensitive substring matching on the registry keys. -/
def moduleKeyMatches (mod_matches : List (String × PDict)) (k : String) :
    List PDict :=
  match lookupStr mod_matches k with
  | some p => [p]
  | none => (mod_matches.filter (fun kp => strContains kp.1 k)).map (·.2)

/-- `DbPrototype.objects.get_by_tag(tags, tag_categories)`: external manager,
modelled as requiring every `(tag, "db_prototype")` pair to be present. -/
def getByTag (store : List DbRecord) (ts : List String) : List DbRecord :=
  store.filter (fun r => ts.all (fun t =>
    r.rtags.any (fun tv => pyBeq tv (.list [.str t, .str "db_prototype"]))))

/-- Db-side key matching (line 422): exact (case-sensitive) filter on `db_key`,
falling back to Django's case-insensitive containment filter when empty. -/
def dbKeyMatches (db_matches : List DbRecord) (k : String) : List DbRecord :=
  let exact := db_matches.filter (fun r => r.db_key == k)
  if !exact.isEmpty then exact
  else db_matches.filter (fun r => strContains (strLower r.db_key) (strLower k))

/-- The deduplication filter condition (line 432): `mta.get('prototype_key')
and mta['prototype_key'] == key` — a missing or falsy key fails, and `==`
against the lower-cased string succeeds only for an equal string value. -/
def dedupPred (kl : String) (m : PDict) : Bool :=
  match pget m "prototype_key" with
  | some v => pyTruthy v && (match v with | .str s => s == kl | _ => false)
  | none => false

/-- The deduplication step (lines 428-434): narrow to entries whose
`prototype_key` is truthy and equals the lower-cased requested key, if that
reduces but does not empty the result set. -/
def dedupKey (k : String) (found : List PDict) : List PDict :=
  let kl := strLower k
  let fm := found.filter (dedupPred kl)
  if !fm.isEmpty && fm.length < found.length then fm else found

/-- `search_prototype(key, tags)`.  An empty-string key or empty tag list is
falsy in the source's `if key:` / `if tags:` tests and behaves like `None`. -/
def searchPrototype (registry : List (String × PDict)) (store : List DbRecord)
    (key : Option String) (tags : Option (List String)) : List PDict :=
  let keyT : Option String := match key with
    | some k => if k == "" then none else some k
    | none => none
  let tagsT : Option (List String) := match tags with
    | some ts => if ts.isEmpty then none else some ts
    | none => none
  let mod_matches := match tagsT with
    | some ts => moduleTagFilter registry ts
    | none => registry
  let module_prototypes := match keyT with
    | some k => moduleKeyMatches mod_matches k
    | none => mod_matches.map (·.2)
  let db0 := match tagsT with
    | some ts => getByTag store ts
    | none => store
  let db_matches := match keyT with
    | some k => dbKeyMatches db0 k
    | none => db0
  let db_prototypes := db_matches.map (·.prototype)
  let found := db_prototypes ++ module_prototypes
  match keyT with
  | some k => if found.length > 1 then dedupKey k found else found
  | none => found

/-! ## `create_prototype` (lines 257-331) and `delete_prototype` (lines 337-365) -/

inductive CrudErr where
  | validationError (msg : String)
  | permissionError (msg : String)
deriving DecidableEq, Repr

/-- `_to_batchtuple`: pair a bare tag with the fixed meta category. -/
def toBatchtuple (v : PyVal) (cat : String) : PyVal :=
  if isIter v then v else .list [v, .str cat]

/-- The `prototype_tags` normalization of `create_prototype` (lines 308-311). -/
def tagsFor (kwargs prototype : PDict) : List PyVal :=
  (makeIter ((pget kwargs "prototype_tags").getD
    ((pget prototype "prototype_tags").getD (.list [])))).map
    (fun t => toBatchtuple t "db_prototype")

/-- The in-place edit of `stored_prototype[0]` (lines 316-324): replace the
first record with matching `db_key`, storing the merged prototype; when the new
tag list is truthy, clear the record's `"from_prototype"`-category tags and add
the new ones. -/
def updateFirst (store : List DbRecord) (k : String) (p : PDict)
    (tg : List PyVal) : List DbRecord :=
  match store with
  | [] => []
  | r :: rs =>
    if r.db_key == k then
      { r with prototype := p,
               rtags := if !tg.isEmpty then
                   r.rtags.filter (fun tv => match tv with
                     | .list [_, .str c] => !(c == "from_prototype")
                     | _ => true) ++ tg
                 else r.rtags } :: rs
    else r :: updateFirst rs k p tg

/-- `create_prototype(**kwargs)`.  `lockErr` is the external
`validate_lockstring` collaborator (`none` = the lock string validates, `some
e` = its error text).  Returns the new store and the stored prototype dict. -/
def createPrototype (lockErr : PyVal → Option String)
    (registry : List (String × PDict)) (moduleOf : List (String × String))
    (store : List DbRecord) (kwargs : PDict) :
    Except CrudErr (List DbRecord × PDict) :=
  match pget kwargs "prototype_key" with
  | none => .error (.validationError "Prototype requires a prototype_key")
  | some pkv =>
    if !pyTruthy pkv then
      .error (.validationError "Prototype requires a prototype_key")
    else
      let pk := strLower (pyStr pkv)
      if (lookupStr registry pk).isSome then
        .error (.permissionError (pk ++ " is a read-only prototype (defined as code in "
          ++ (lookupStr moduleOf pk).getD "N/A" ++ ")."))
      else
        let stored := store.filter (fun r => r.db_key == pk)
        let prototype : PDict := match stored with
          | r :: _ => r.prototype
          | [] => []
        let kwargs1 := pset kwargs "prototype_desc"
          ((pget kwargs "prototype_desc").getD
            ((pget prototype "prototype_desc").getD (.str "")))
        let locks := (pget kwargs "prototype_locks").getD
          ((pget prototype "prototype_locks").getD
            (.str "spawn:all();edit:perm(Admin)"))
        match lockErr locks with
        | some e => .error (.validationError ("Lock error: " ++ e))
        | none =>
          let kwargs2 := pset kwargs1 "prototype_locks" locks
          let tg := tagsFor kwargs prototype
          let kwargs3 := pset kwargs2 "prototype_tags" (.list tg)
          let merged := pupdate prototype kwargs3
          match stored with
          | _ :: _ => .ok (updateFirst store pk merged tg, merged)
          | [] => .ok (store ++ [⟨pk, tg, merged⟩], merged)

/-- The persisted store a `create_prototype` call leaves behind: unchanged when
the call raises. -/
def storeAfterCreate (lockErr : PyVal → Option String)
    (registry : List (String × PDict)) (moduleOf : List (String × String))
    (store : List DbRecord) (kwargs : PDict) : List DbRecord :=
  match createPrototype lockErr registry moduleOf store kwargs with
  | .ok (s', _) => s'
  | .error _ => store

inductive DelOutcome where
  | ok (store : List DbRecord)
  | permissionError (msg : String)
  | nameError
  | attributeError

/-- `delete_prototype(key, caller)`.  The body never reads its `key` parameter:
every reference is to the name `prototype_key`, which resolves to the
module-level loop variable leaked by the prototype loader (lines 225/230), or
raises `NameError` when no module prototype was ever iterated.  When a caller
is supplied and a record is found, `stored_prototype.access(caller, 'edit')` is
called on the queryset itself (never indexed), which has no `access` method:
`AttributeError`. -/
def deletePrototype (g : Globals) (store : List DbRecord) (key : String)
    (caller : Option Unit) : DelOutcome :=
  match g.leaked with
  | none => .nameError
  | some pk =>
    if (lookupStr g.registry pk).isSome then
      .permissionError (pk ++ " is a read-only prototype (defined as code in "
        ++ (lookupStr g.moduleOf pk).getD "N/A" ++ ").")
    else
      let stored := store.filter (fun r => r.db_key == pk)
      if stored.isEmpty then
        .permissionError ("Prototype " ++ pk ++ " was not found.")
      else
        match caller with
        | some _ => .attributeError
        | none => .ok (store.filter (fun r => !(r.db_key == pk)))

/-! ## `validate_prototype` (lines 519-603)

The recursion is given explicit fuel: `validate_prototype(protparent,
protstring, protparents, _flags)` at line 587 passes the flags dict
*positionally into the `is_prototype_base` parameter* (a nonempty dict, hence
truthy), so every recursive invocation receives `_flags=None` and
re-initialises a fresh accumulator; nothing bounds the depth and a cyclic
parent graph recurses until Python's recursion limit (`recursionError` here).
Because the accumulator is fresh in every call, each level's `depth` is 0 at
its own raise check and each level raises its own accumulated errors.

A prototype dict is viewed through the fields the validator reads; `typeclass`
membership is checked against `tcs`, the name set of the external
`get_all_typeclasses` collaborator.  The validator derives its parent pool from
`search_prototype()` only when handed a falsy pool; the claims below always
supply one, so the pool is a plain parameter here. -/

inductive VOutcome where
  | ok
  | runtimeError (msg : String)
  | runtimeWarning (msg : String)
  | indexError
  | attributeError
  | recursionError
deriving DecidableEq, Repr

structure Proto where
  pid : Nat
  prototype_key : Option String
  typeclass : Option String
  prototype_parent : PyVal

/-- Truthiness of an optional string field. -/
def optTruthy : Option String → Bool
  | some s => !(s == "")
  | none => false

/-- The `for protstring in make_iter(prototype_parent)` loop (lines 578-588).
A non-string entry raises `AttributeError` at `protstring.lower()`; a missing
parent raises `IndexError`, because line 584 formats a two-placeholder message
with a single tuple argument; a raising recursive call propagates. -/
def parentLoop (validate1 : Proto → Option String → Bool → VOutcome)
    (pool : List (String × Proto)) (protkeyS : String) :
    List PyVal → List String → Except VOutcome (List String)
  | [], errs => .ok errs
  | pv :: rest, errs =>
    match pv with
    | .str ps =>
      let psl := strLower ps
      let errs1 := errs ++ (if psl == protkeyS then
        ["Protototype " ++ protkeyS ++ " tries to parent itself."] else [])
      match lookupStr pool psl with
      | none => .error .indexError
      | some par =>
        match validate1 par (some psl) true with
        | .ok => parentLoop validate1 pool protkeyS rest errs1
        | out => .error out
    | _ => .error .attributeError

/-- One invocation of `validate_prototype`, with `recur` standing for the
recursive call at line 587 (which, in the source, re-enters the function with
`_flags=None` and a truthy `is_prototype_base`). -/
def validateStep (tcs : List String) (pool : List (String × Proto))
    (recur : Proto → Option String → Bool → VOutcome)
    (p : Proto) (protkeyArg : Option String) (isBase : Bool) : VOutcome :=
    -- fresh accumulator on every call (see the section comment)
    let visited : List Nat := []
    -- protkey = protkey and protkey.lower() or prototype.get('prototype_key', None)
    let protkey0 : Option String := match protkeyArg with
      | some k => if k == "" then p.prototype_key else some (strLower k)
      | none => p.prototype_key
    let (protkeyS, errs0) : String × List String :=
      match protkey0 with
      | some k => if k == "" then ("[UNSET]", ["Prototype lacks a `prototype_key`."])
          else (k, [])
      | none => ("[UNSET]", ["Prototype lacks a `prototype_key`."])
    let typeclass := p.typeclass
    let hasBase := optTruthy typeclass || pyTruthy p.prototype_parent
    let errs1 := errs0 ++ (if !hasBase && isBase then
      ["Prototype " ++ protkeyS ++ " requires `typeclass` or 'prototype_parent'."]
      else [])
    let warns := if !hasBase && !isBase then
      ["Prototype " ++ protkeyS ++
        " can only be used as a mixin since it lacks a typeclass or a prototype_parent."]
      else []
    let errs2 := errs1 ++ (match typeclass with
      | some tc => if !(tc == "") && !(tcs.contains tc) then
          ["Prototype " ++ protkeyS ++ " is based on typeclass " ++ tc ++
            " which could not be imported!"]
          else []
      | none => [])
    let errs3 := errs2 ++ (if visited.contains p.pid then
      [protkeyS ++ " has infinite nesting of prototypes."] else [])
    match parentLoop recur pool protkeyS
        (makeIter p.prototype_parent) errs3 with
    | .error out => out
    | .ok errs4 =>
      -- only this prototype's own typeclass ever reaches _flags['typeclass']
      let flagsTc : Option String := if optTruthy typeclass then typeclass else none
      -- _flags['depth'] is 0 again here: each loop descent added and removed 1
      let errs5 := errs4 ++ (if isBase && !optTruthy flagsTc then
        ["Prototype " ++ protkeyS ++
          " has no `typeclass` defined anywhere in its parent chain. Add `typeclass`, or a `prototype_parent` pointing to a prototype with a typeclass."]
        else [])
      if !errs5.isEmpty then
        .runtimeError ("Error: " ++ String.intercalate "\nError: " errs5)
      else if !warns.isEmpty then
        .runtimeWarning ("Warning: " ++ String.intercalate "\nWarning: " warns)
      else .ok

/-- `validate_prototype` with explicit recursion fuel: exhausting the fuel is
Python's `RecursionError`. -/
def validateP (tcs : List String) (pool : List (String × Proto)) :
    Nat → Proto → Option String → Bool → VOutcome
  | 0 => fun _ _ _ => .recursionError
  | fuel + 1 => validateStep tcs pool (validateP tcs pool fuel)

/-! # Lemmas about the `_RE_DBREF` scan -/

/-- Characters other than `#` never start a `_RE_DBREF` match: the scan copies
them and extends the lookbehind context. -/
theorem dbrefScan_append_no_hash :
    ∀ (p prev rest : List Char), (∀ c ∈ p, ¬ c = '#') →
      dbrefScan false prev (p ++ rest) = p ++ dbrefScan false (p.reverse ++ prev) rest
  | [], prev, rest, _ => by simp
  | c :: p, prev, rest, h => by
    have hc : ¬ c = '#' := h c (List.mem_cons_self c p)
    have hcb : (c == '#') = false := beq_eq_false_iff_ne.mpr hc
    have hrec := dbrefScan_append_no_hash p (c :: prev) rest
      (fun d hd => h d (List.mem_cons_of_mem c hd))
    simp only [List.cons_append, dbrefScan, hcb, Bool.false_and,
      Bool.false_eq_true, if_false, List.nil_append, List.append_eq]
    rw [hrec]
    simp [List.append_assoc]

/-- A `#` whose lookbehind context starts with `$obj(` reversed is not
rewritten. -/
theorem dbrefScan_hash_blocked (prev rest : List Char)
    (hprev : ("(jbo$".data.isPrefixOf prev) = true) :
    dbrefScan false prev ('#' :: rest) = '#' :: dbrefScan false ('#' :: prev) rest := by
  simp [dbrefScan, hprev]

/-- Inside a match, a digit run that ends the input is copied and closed. -/
theorem dbrefScan_token_digits :
    ∀ (ds prev : List Char), (∀ c ∈ ds, c.isDigit = true) →
      dbrefScan true prev ds = ds ++ [')']
  | [], prev, _ => by simp [dbrefScan]
  | d :: ds, prev, h => by
    have hd : d.isDigit = true := h d (List.mem_cons_self d ds)
    have hrec := dbrefScan_token_digits ds (d :: prev)
      (fun c hc => h c (List.mem_cons_of_mem d hc))
    simp only [dbrefScan, hd, Bool.and_self, Bool.true_and, if_true, hrec,
      List.cons_append]

/-- A digit never equals `#`. -/
theorem ne_hash_of_isDigit {c : Char} (h : c.isDigit = true) : ¬ c = '#' := by
  intro he
  rw [he] at h
  exact absurd h (by decide)

/-- A bare `#`-digits token at the end of the input, whose lookbehind does not
end in `$obj(`, is rewritten into the wrapped form. -/
theorem dbrefScan_token (prev ds : List Char) (hne : ds ≠ [])
    (hds : ∀ c ∈ ds, c.isDigit = true)
    (hprev : ("(jbo$".data.isPrefixOf prev) = false) :
    dbrefScan false prev ('#' :: ds) = "$obj(#".data ++ ds ++ [')'] := by
  match ds, hne with
  | d :: ds1, _ =>
    have hd : d.isDigit = true := hds d (List.mem_cons_self d ds1)
    simp only [dbrefScan, Bool.false_and, Bool.false_eq_true, if_false,
      List.nil_append, beq_self_eq_true, Bool.true_and, hd, hprev,
      Bool.not_false, Bool.and_true, if_true]
    rw [dbrefScan_token_digits ds1 (d :: '#' :: prev)
      (fun c hc => hds c (List.mem_cons_of_mem d hc))]
    simp [List.append_assoc]

/-- A single non-`#` character is copied with the scan continuing after it. -/
theorem dbrefScan_no_hash_step (c : Char) (prev s : List Char)
    (hc : (c == '#') = false) :
    dbrefScan false prev (c :: s) = c :: dbrefScan false (c :: prev) s := by
  simp [dbrefScan, hc]

/-- A list is a `isPrefixOf`-prefix of itself followed by anything. -/
theorem isPrefixOf_append_self : ∀ (l t : List Char), (l.isPrefixOf (l ++ t)) = true
  | [], _ => by simp
  | c :: l, t => by
    simp only [List.cons_append, List.isPrefixOf, beq_self_eq_true, Bool.true_and]
    exact isPrefixOf_append_self l t

/-- Inside a match, a single digit is copied with the scan still inside the
match. -/
theorem dbrefScan_digit_step (d : Char) (prev s : List Char)
    (hd : d.isDigit = true) :
    dbrefScan true prev (d :: s) = d :: dbrefScan true (d :: prev) s := by
  simp [dbrefScan, hd]

/-- Inside a match, a digit run is copied and the scan stays inside the match
after it. -/
theorem dbrefScan_true_digits_walk :
    ∀ (ds prev s : List Char), (∀ c ∈ ds, c.isDigit = true) →
      dbrefScan true prev (ds ++ s) = ds ++ dbrefScan true (ds.reverse ++ prev) s
  | [], _, _, _ => by simp
  | d :: ds, prev, s, h => by
    have hd : d.isDigit = true := h d (List.mem_cons_self d ds)
    have hrec := dbrefScan_true_digits_walk ds (d :: prev) s
      (fun c hc => h c (List.mem_cons_of_mem d hc))
    rw [List.cons_append, dbrefScan_digit_step d prev (ds ++ s) hd, hrec]
    simp [List.append_assoc]

/-- A match in progress is closed with `)` at the end of the digit run, the
scan resuming in ordinary mode. -/
theorem dbrefScan_true_close :
    ∀ (prev s : List Char), headNotDigit s = true →
      dbrefScan true prev s = ')' :: dbrefScan false prev s
  | _, [], _ => rfl
  | prev, c :: rest, h => by
    have hc : c.isDigit = false := by simpa [headNotDigit] using h
    simp only [dbrefScan, hc, Bool.true_and, Bool.false_and, Bool.false_eq_true,
      if_false, if_true, List.singleton_append, List.nil_append]

/-! # Claims -/

/-- C8: the spec states non-string inputs pass through `protfunc_parser`
unchanged, and the source's own docstring agrees ("all other types are
returned as-is"), but lines 89-90 coerce every non-string input to a string
with `to_str(value, force_string=True)` and parse that string.  Evaluated at a
callable input (whose string form is not a Python literal, so `literal_eval`
raises and the string is kept), the call returns the string form, not the
input. -/
theorem C8_nonstring_input_is_stringified :
    protfuncParser id (fun _ => none) (.callable 0) = .str "<callable 0>" ∧
    PyVal.str "<callable 0>" ≠ PyVal.callable 0 := by
  refine ⟨rfl, fun h => ?_⟩
  exact PyVal.noConfusion h

/-- C9: the `_RE_DBREF` rewrite of `protfunc_parser` is idempotent on
already-wrapped references and wraps bare ones, wherever the token sits in the
string: (1) `"$obj(#12)"` is left exactly as it is; (2) for every scan context
`prev` (the original text before the token, reversed) and every suffix `s`, a
digit token already wrapped as `$obj(#…)` is emitted verbatim, the scan
continuing unperturbed on `s`; (3) for every context `prev` not ending in the
literal `$obj(` and every suffix `s` not extending the digit run, a bare
`#`-digits token is emitted in wrapped form, the scan continuing unperturbed
on `s`.  Instantiating (2) and (3) with `prev` the reversal of an arbitrary
already-scanned prefix and `s` an arbitrary rest of the string places the
tokens anywhere in the input. -/
theorem C9_dbref_rewrite_idempotent :
    (dbrefSub "$obj(#12)" = "$obj(#12)") ∧
    (∀ prev ds s : List Char, (∀ c ∈ ds, c.isDigit = true) →
      dbrefScan false prev ("$obj(#".data ++ (ds ++ (')' :: s))) =
        "$obj(#".data ++ (ds ++ (')' :: dbrefScan false
          (')' :: (ds.reverse ++ ('#' :: ("(jbo$".data ++ prev)))) s))) ∧
    (∀ prev ds s : List Char,
      ("(jbo$".data.isPrefixOf prev) = false →
      ds ≠ [] → (∀ c ∈ ds, c.isDigit = true) → headNotDigit s = true →
      dbrefScan false prev ('#' :: (ds ++ s)) =
        "$obj(#".data ++ (ds ++ (')' :: dbrefScan false
          (ds.reverse ++ ('#' :: prev)) s))) := by
  refine ⟨rfl, ?_, ?_⟩
  · intro prev ds s hds
    have hshape : "$obj(#".data ++ (ds ++ (')' :: s)) =
        "$obj(".data ++ ('#' :: (ds ++ ')' :: s)) := by
      simp [List.append_assoc]
    rw [hshape]
    rw [dbrefScan_append_no_hash "$obj(".data prev ('#' :: (ds ++ ')' :: s))
      (by decide)]
    have hrev : ("$obj(".data.reverse : List Char) = "(jbo$".data := by decide
    rw [hrev]
    rw [dbrefScan_hash_blocked ("(jbo$".data ++ prev) (ds ++ ')' :: s)
      (isPrefixOf_append_self _ _)]
    rw [dbrefScan_append_no_hash ds ('#' :: ("(jbo$".data ++ prev)) (')' :: s)
      (fun c hc => ne_hash_of_isDigit (hds c hc))]
    rw [dbrefScan_no_hash_step ')' (ds.reverse ++ '#' :: ("(jbo$".data ++ prev)) s
      (by decide)]
    simp [List.append_assoc]
  · intro prev ds s hpre hne hds hs
    match ds, hne with
    | d :: ds1, _ =>
      have hd : d.isDigit = true := hds d (List.mem_cons_self d ds1)
      simp only [List.cons_append, dbrefScan, Bool.false_and, Bool.false_eq_true,
        if_false, List.nil_append, beq_self_eq_true, Bool.true_and, hd, hpre,
        Bool.not_false, Bool.and_true, if_true, List.append_eq]
      have hw := dbrefScan_true_digits_walk ds1 (d :: '#' :: prev) s
        (fun c hc => hds c (List.mem_cons_of_mem d hc))
      rw [hw]
      rw [dbrefScan_true_close (ds1.reverse ++ d :: '#' :: prev) s hs]
      simp [List.reverse_cons, List.append_assoc]

/-- Concrete instance of the bare-token rewrite of
`C9_dbref_rewrite_idempotent`: a `#42` token in the middle of the string
`"go to #42 end"` is wrapped, with the scan of the rest unperturbed. -/
theorem C9_dbref_rewrite_idempotent_witness :
    dbrefScan false "ot og".data ('#' :: (['4', '2'] ++ " end".data)) =
      "$obj(#42) end".data :=
  (C9_dbref_rewrite_idempotent.2.2 "ot og".data ['4', '2'] " end".data
    (by decide) (by decide) (by decide) (by decide)).trans (by decide)

/-- C7 counterexample: the claimed third case ("otherwise it returns
validator(value) with the value itself unchanged") is false of the program.
`init_spawn_value("\x7b1: 2\x7d")` parses to the dict `\x7b1: 2\x7d`
(`literal_eval` of the string); the dict is truthy, passes `is_iter` (Python 2
dicts have `__iter__`), and `value[0]` at line 213 raises `KeyError: 0` instead
of the call returning the dict through the identity validator. -/
theorem C7_mapping_value_counterexample :
    initSpawnValue id (fun _ => some (.pydict [(.int 1, .int 2)]))
      (fun _ _ => .int 0) none (.str "\x7b1: 2\x7d") = .keyError ∧
    initSpawnValue id (fun _ => some (.pydict [(.int 1, .int 2)]))
      (fun _ _ => .int 0) none (.str "\x7b1: 2\x7d") ≠
      .ok (.pydict [(.int 1, .int 2)]) :=
  ⟨rfl, fun h => SpawnOutcome.noConfusion (rfl.trans h)⟩

/-- C7 (amended): `init_spawn_value` invokes a parsed callable with no
arguments and validates the result; it invokes the head of a non-empty list
whose first element is callable on the remaining elements; a parsed value that
is neither of those and is not a dict probing badly at key 0 goes to the
validator unchanged (the identity validator standing in when none is
supplied).  But a non-empty parsed dict is probed at `value[0]`: a missing
key 0 raises `KeyError`, and a callable at key 0 leads to `value[1:]` raising
`TypeError`, so such dicts never reach the "unchanged" case. -/
theorem C7_init_spawn_value_classification
    (parseInline : String → String) (litEval : String → Option PyVal)
    (app : Nat → List PyVal → PyVal) (validator : Option (PyVal → PyVal))
    (value : PyVal) :
    (∀ fid, protfuncParser parseInline litEval value = .callable fid →
      initSpawnValue parseInline litEval app validator value =
        .ok ((validator.getD id) (app fid []))) ∧
    (∀ fid rest,
      protfuncParser parseInline litEval value = .list (.callable fid :: rest) →
      initSpawnValue parseInline litEval app validator value =
        .ok ((validator.getD id) (app fid rest))) ∧
    (∀ kvs, protfuncParser parseInline litEval value = .pydict kvs →
      kvs.isEmpty = false → lookupPy kvs (.int 0) = none →
      initSpawnValue parseInline litEval app validator value = .keyError) ∧
    (∀ kvs fid, protfuncParser parseInline litEval value = .pydict kvs →
      kvs.isEmpty = false → lookupPy kvs (.int 0) = some (.callable fid) →
      initSpawnValue parseInline litEval app validator value = .typeError) ∧
    ((∀ fid, protfuncParser parseInline litEval value ≠ .callable fid) →
     (∀ fid rest,
        protfuncParser parseInline litEval value ≠ .list (.callable fid :: rest)) →
     (∀ kvs, protfuncParser parseInline litEval value = .pydict kvs →
        kvs.isEmpty = false →
        ∃ v0, lookupPy kvs (.int 0) = some v0 ∧ ∀ fid, v0 ≠ .callable fid) →
      initSpawnValue parseInline litEval app validator value =
        .ok ((validator.getD id) (protfuncParser parseInline litEval value))) ∧
    (validator = none →
     (∀ fid, protfuncParser parseInline litEval value ≠ .callable fid) →
     (∀ fid rest,
        protfuncParser parseInline litEval value ≠ .list (.callable fid :: rest)) →
     (∀ kvs, protfuncParser parseInline litEval value = .pydict kvs →
        kvs.isEmpty = false →
        ∃ v0, lookupPy kvs (.int 0) = some v0 ∧ ∀ fid, v0 ≠ .callable fid) →
      initSpawnValue parseInline litEval app validator value =
        .ok (protfuncParser parseInline litEval value)) := by
  have hother : (∀ fid, protfuncParser parseInline litEval value ≠ .callable fid) →
      (∀ fid rest,
        protfuncParser parseInline litEval value ≠ .list (.callable fid :: rest)) →
      (∀ kvs, protfuncParser parseInline litEval value = .pydict kvs →
        kvs.isEmpty = false →
        ∃ v0, lookupPy kvs (.int 0) = some v0 ∧ ∀ fid, v0 ≠ .callable fid) →
      initSpawnValue parseInline litEval app validator value =
        .ok ((validator.getD id) (protfuncParser parseInline litEval value)) := by
    intro h1 h2 h3
    simp only [initSpawnValue]
    cases hv : protfuncParser parseInline litEval value with
    | str s => rfl
    | int n => rfl
    | callable fid => exact absurd hv (h1 fid)
    | list vs =>
      cases vs with
      | nil => rfl
      | cons v0 rest =>
        cases v0 with
        | callable fid => exact absurd hv (h2 fid rest)
        | str s => rfl
        | int n => rfl
        | list ws => rfl
        | pydict kvs => rfl
    | pydict kvs =>
      dsimp only
      by_cases he : kvs.isEmpty = true
      · rw [if_pos he]
      · rw [if_neg he]
        obtain ⟨v0, hl, hnc⟩ := h3 kvs hv (eq_false_of_ne_true he)
        rw [hl]
        cases v0 with
        | callable fid => exact absurd rfl (hnc fid)
        | str s => rfl
        | int n => rfl
        | list ws => rfl
        | pydict kvs => rfl
  refine ⟨?_, ?_, ?_, ?_, hother, ?_⟩
  · intro fid hv
    simp only [initSpawnValue, hv]
  · intro fid rest hv
    simp only [initSpawnValue, hv]
  · intro kvs hv he hl
    simp only [initSpawnValue, hv, he, Bool.false_eq_true, if_false, hl]
  · intro kvs fid hv he hl
    simp only [initSpawnValue, hv, he, Bool.false_eq_true, if_false, hl]
  · intro hnone h1 h2 h3
    rw [hother h1 h2 h3, hnone]
    rfl

/-- Concrete instances of `C7_init_spawn_value_classification`: the parsed
value `(callable 3, (7,))` spawns as `app 3 [7]`, and the parsed dict
`\x7b0: f\x7d` with a callable at key 0 raises `TypeError` from the
`value[1:]` slice. -/
theorem C7_init_spawn_value_classification_witness :
    initSpawnValue id (fun _ => some (.list [.callable 3, .int 7]))
      (fun fid args => .list (.int (Int.ofNat fid) :: args)) none (.str "x") =
      .ok (.list [.int 3, .int 7]) ∧
    initSpawnValue id (fun _ => some (.pydict [(.int 0, .callable 5)]))
      (fun fid args => .list (.int (Int.ofNat fid) :: args)) none (.str "y") =
      .typeError :=
  ⟨(C7_init_spawn_value_classification id (fun _ => some (.list [.callable 3, .int 7]))
      (fun fid args => .list (.int (Int.ofNat fid) :: args)) none (.str "x")).2.1
      3 [.int 7] rfl,
   (C7_init_spawn_value_classification id (fun _ => some (.pydict [(.int 0, .callable 5)]))
      (fun fid args => .list (.int (Int.ofNat fid) :: args)) none (.str "y")).2.2.2.1
      [(.int 0, .callable 5)] 5 rfl rfl rfl⟩

/-! # Case and membership lemmas for key matching -/

/-- `Char.toLower` never returns an upper-case ASCII letter. -/
theorem char_toLower_not_upper (c : Char) : c.toLower.isUpper = false := by
  unfold Char.toLower
  simp only []
  by_cases h : c.toNat ≥ 65 ∧ c.toNat ≤ 90
  · rw [if_pos h]
    have hval : (c.toNat + 32).isValidChar := Or.inl (by omega)
    rw [Char.ofNat, dif_pos hval]
    have h90 : ¬ ((Char.ofNatAux (c.toNat + 32) hval).val ≤ (90 : UInt32)) := by
      simp only [Char.ofNatAux]
      rw [UInt32.le_def, BitVec.le_def]
      have he : (90 : UInt32).toBitVec.toNat = 90 := rfl
      rw [he]
      simp only [BitVec.toNat_ofNatLt]
      omega
    simp only [Char.isUpper, decide_eq_false h90, Bool.and_false]
  · rw [if_neg h]
    rcases Nat.lt_or_ge c.toNat 65 with hlt | hge
    · have h65 : ¬ ((65 : UInt32) ≤ c.val) := by
        rw [UInt32.le_def, BitVec.le_def]
        have he : (65 : UInt32).toBitVec.toNat = 65 := rfl
        rw [he]
        have hv : c.val.toBitVec.toNat = c.toNat := rfl
        omega
      simp only [Char.isUpper, ge_iff_le, decide_eq_false h65, Bool.false_and]
    · have h90 : ¬ (c.val ≤ (90 : UInt32)) := by
        rw [UInt32.le_def, BitVec.le_def]
        have he : (90 : UInt32).toBitVec.toNat = 90 := rfl
        rw [he]
        have hv : c.val.toBitVec.toNat = c.toNat := rfl
        omega
      simp only [Char.isUpper, decide_eq_false h90, Bool.and_false]

/-- No character of a lower-cased string is upper case. -/
theorem strLower_no_upper (s : String) :
    ∀ c ∈ (strLower s).data, c.isUpper = false := by
  intro c hc
  simp only [strLower] at hc
  rcases List.mem_map.mp hc with ⟨a, _, rfl⟩
  exact char_toLower_not_upper a

/-- Membership through `isPrefixOf`. -/
theorem mem_of_isPrefixOf :
    ∀ {l₁ l₂ : List Char}, l₁.isPrefixOf l₂ = true → ∀ a ∈ l₁, a ∈ l₂
  | [], _, _, a, ha => absurd ha (List.not_mem_nil a)
  | c :: l₁, [], h, a, ha => by simp [List.isPrefixOf] at h
  | c :: l₁, d :: l₂, h, a, ha => by
    simp only [List.isPrefixOf, Bool.and_eq_true, beq_iff_eq] at h
    rcases List.mem_cons.mp ha with rfl | ha1
    · rw [h.1]; exact List.mem_cons_self _ _
    · exact List.mem_cons_of_mem _ (mem_of_isPrefixOf h.2 a ha1)

/-- Every character of a contained substring occurs in the containing
string. -/
theorem mem_of_listContains {needle hay : List Char}
    (h : listContains needle hay = true) : ∀ a ∈ needle, a ∈ hay := by
  intro a ha
  rcases List.any_eq_true.mp h with ⟨i, _, hpre⟩
  exact List.mem_of_mem_drop (mem_of_isPrefixOf hpre a ha)

/-- Keys of the code-declared registry built by the loader contain no
upper-case letters: each one was stored lower-cased. -/
def RegKeysLower (reg : List (String × PDict)) : Prop :=
  ∀ kv ∈ reg, ∀ c ∈ kv.1.data, c.isUpper = false

theorem regKeysLower_dictInsert {reg : List (String × PDict)} {s : String}
    {v : PDict} (hreg : RegKeysLower reg) :
    RegKeysLower (dictInsert reg (strLower s) v) := by
  intro kv hkv
  unfold dictInsert at hkv
  by_cases hmem : (lookupStr reg (strLower s)).isSome
  · rw [if_pos hmem] at hkv
    rcases List.mem_map.mp hkv with ⟨kw, hkw, rfl⟩
    by_cases he : (kw.1 == strLower s) = true
    · rw [if_pos he]
      exact strLower_no_upper s
    · rw [if_neg he]
      exact hreg kw hkw
  · rw [if_neg hmem] at hkv
    rcases List.mem_append.mp hkv with hin | hnew
    · exact hreg kv hin
    · rcases List.mem_singleton.mp hnew with rfl
      exact strLower_no_upper s

/-- `normalizeModProto` always produces a lower-cased key. -/
theorem normalizeModProto_key_lower {modName varname : String} {prot : PDict}
    {a : String} {q : PDict} (h : normalizeModProto modName varname prot = some (a, q)) :
    ∃ s, a = strLower s := by
  unfold normalizeModProto at h
  cases hk : pget prot "prototype_key" with
  | none =>
    rw [hk] at h
    simp only [Option.some.injEq, Prod.mk.injEq] at h
    exact ⟨varname, h.1.symm⟩
  | some v =>
    cases v with
    | str s =>
      rw [hk] at h
      simp only [Option.some.injEq, Prod.mk.injEq] at h
      exact ⟨s, h.1.symm⟩
    | int n => rw [hk] at h; exact absurd h (by simp)
    | callable fid => rw [hk] at h; exact absurd h (by simp)
    | list vs => rw [hk] at h; exact absurd h (by simp)
    | pydict kvs => rw [hk] at h; exact absurd h (by simp)

theorem regKeysLower_loadProts {modName : String} :
    ∀ (prots : List (String × PDict)) (g g' : Globals),
      RegKeysLower g.registry → loadProts modName g prots = some g' →
      RegKeysLower g'.registry
  | [], g, g', hreg, h => by
    simp only [loadProts, Option.some.injEq] at h
    rw [← h]
    exact hreg
  | p :: rest, g, g', hreg, h => by
    simp only [loadProts] at h
    cases hn : normalizeModProto modName p.1 p.2 with
    | none => rw [hn] at h; exact absurd h (by simp)
    | some aq =>
      rw [hn] at h
      rcases normalizeModProto_key_lower hn with ⟨s, hs⟩
      refine regKeysLower_loadProts rest _ g' ?_ h
      simp only
      rw [hs]
      exact regKeysLower_dictInsert hreg

theorem regKeysLower_loadModule {g g' : Globals} {modName : String}
    {glbls : List (String × PDict)} (hreg : RegKeysLower g.registry)
    (h : loadModule g modName glbls = some g') : RegKeysLower g'.registry := by
  unfold loadModule at h
  refine regKeysLower_loadProts _ _ g' ?_ h
  exact hreg

theorem regKeysLower_loadModulesFrom :
    ∀ (mods : List (String × List (String × PDict))) (g G : Globals),
      RegKeysLower g.registry → loadModulesFrom g mods = some G →
      RegKeysLower G.registry
  | [], g, G, hreg, h => by
    simp only [loadModulesFrom, Option.some.injEq] at h
    rw [← h]
    exact hreg
  | m :: rest, g, G, hreg, h => by
    simp only [loadModulesFrom] at h
    cases hm : loadModule g m.1 m.2 with
    | none => rw [hm] at h; exact absurd h (by simp)
    | some g1 =>
      rw [hm] at h
      exact regKeysLower_loadModulesFrom rest g1 G (regKeysLower_loadModule hreg hm) h

theorem regKeysLower_loadModules {mods : List (String × List (String × PDict))}
    {G : Globals} (h : loadModules mods = some G) : RegKeysLower G.registry :=
  regKeysLower_loadModulesFrom mods _ G
    (fun kv hkv => absurd hkv (List.not_mem_nil kv)) h

/-- C10: key matching against the code-declared registry is case-sensitive
while the loader stores every registry key lower-cased, so a search key
containing an upper-case letter matches no code-declared prototype, neither
exactly nor as a substring. -/
theorem C10_module_key_match_case_sensitive
    (mods : List (String × List (String × PDict))) (G : Globals) (key : String)
    (hload : loadModules mods = some G)
    (hup : ∃ c ∈ key.data, c.isUpper = true) :
    moduleKeyMatches G.registry key = [] := by
  have hreg : RegKeysLower G.registry := regKeysLower_loadModules hload
  rcases hup with ⟨c, hc, hcup⟩
  have hnotin : ∀ kv ∈ G.registry, ¬ (kv.1 == key) = true := by
    intro kv hkv he
    have : kv.1 = key := by exact beq_iff_eq.mp he
    have := hreg kv hkv c (by rw [this]; exact hc)
    rw [hcup] at this
    exact Bool.true_eq_false.mp this
  have hfind : G.registry.find? (fun kv => kv.1 == key) = none :=
    List.find?_eq_none.mpr hnotin
  have hfuzzy : moduleKeyMatches G.registry key =
      (G.registry.filter (fun kp => strContains kp.1 key)).map (·.2) := by
    unfold moduleKeyMatches lookupStr
    rw [hfind]
    rfl
  have hfilter : G.registry.filter (fun kp => strContains kp.1 key) = [] := by
    rw [List.filter_eq_nil_iff]
    intro kp hkp hcon
    have hcon2 : listContains key.data kp.1.data = true := hcon
    have hmem := mem_of_listContains hcon2 c hc
    have := hreg kp hkp c hmem
    rw [hcup] at this
    exact Bool.true_eq_false.mp this
  rw [hfuzzy, hfilter]
  rfl

/-- In the mutually-parenting pool `{p ↦ parent q, q ↦ parent p}`, the
validator re-enters itself forever: no amount of fuel lets either entry
return, because line 587 passes `_flags` positionally into
`is_prototype_base`, so each recursive call starts with a fresh `visited`
list and the cycle check never fires. -/
theorem validateP_cycle_pair (tcs : List String) :
    ∀ fuel : Nat,
      validateP tcs
        [("p", ⟨1, some "p", none, .str "q"⟩), ("q", ⟨2, some "q", none, .str "p"⟩)]
        fuel ⟨1, some "p", none, .str "q"⟩ (some "p") true = .recursionError ∧
      validateP tcs
        [("p", ⟨1, some "p", none, .str "q"⟩), ("q", ⟨2, some "q", none, .str "p"⟩)]
        fuel ⟨2, some "q", none, .str "p"⟩ (some "q") true = .recursionError := by
  intro fuel
  induction fuel with
  | zero => exact ⟨rfl, rfl⟩
  | succ n ih =>
    constructor
    · show validateStep tcs _ (validateP tcs _ n) _ (some "p") true = _
      simp only [validateStep, parentLoop, makeIter]
      rw [show strLower "q" = "q" from rfl]
      rw [show lookupStr
        [("p", (⟨1, some "p", none, .str "q"⟩ : Proto)), ("q", ⟨2, some "q", none, .str "p"⟩)]
        "q" = some ⟨2, some "q", none, .str "p"⟩ from rfl]
      dsimp only
      rw [ih.2]
    · show validateStep tcs _ (validateP tcs _ n) _ (some "q") true = _
      simp only [validateStep, parentLoop, makeIter]
      rw [show strLower "p" = "p" from rfl]
      rw [show lookupStr
        [("p", (⟨1, some "p", none, .str "q"⟩ : Proto)), ("q", ⟨2, some "q", none, .str "p"⟩)]
        "p" = some ⟨1, some "p", none, .str "q"⟩ from rfl]
      dsimp only
      rw [ih.1]

/-- C1: counter-evidence to the claim that validating either member of a
two-prototype parent cycle raises a structural "infinite nesting" error.  For
every recursion allowance, validating `p` or `q` from the top (no explicit
`protkey`, `is_prototype_base=True`) exhausts it: the run never returns and
never raises the "infinite nesting" `RuntimeError`; in Python the recursion
limit is hit instead.  The dead cycle check is dead because line 587 passes
`_flags` into `is_prototype_base`, so the visited list is reset on every
descent. -/
theorem C1_cycle_validation_diverges (tcs : List String) (fuel : Nat) :
    validateP tcs
      [("p", ⟨1, some "p", none, .str "q"⟩), ("q", ⟨2, some "q", none, .str "p"⟩)]
      fuel ⟨1, some "p", none, .str "q"⟩ none true = .recursionError ∧
    validateP tcs
      [("p", ⟨1, some "p", none, .str "q"⟩), ("q", ⟨2, some "q", none, .str "p"⟩)]
      fuel ⟨2, some "q", none, .str "p"⟩ none true = .recursionError := by
  cases fuel with
  | zero => exact ⟨rfl, rfl⟩
  | succ n =>
    constructor
    · show validateStep tcs _ (validateP tcs _ n) _ none true = _
      simp only [validateStep, parentLoop, makeIter]
      rw [show strLower "q" = "q" from rfl]
      rw [show lookupStr
        [("p", (⟨1, some "p", none, .str "q"⟩ : Proto)), ("q", ⟨2, some "q", none, .str "p"⟩)]
        "q" = some ⟨2, some "q", none, .str "p"⟩ from rfl]
      dsimp only
      rw [(validateP_cycle_pair tcs n).2]
    · show validateStep tcs _ (validateP tcs _ n) _ none true = _
      simp only [validateStep, parentLoop, makeIter]
      rw [show strLower "p" = "p" from rfl]
      rw [show lookupStr
        [("p", (⟨1, some "p", none, .str "q"⟩ : Proto)), ("q", ⟨2, some "q", none, .str "p"⟩)]
        "p" = some ⟨1, some "p", none, .str "q"⟩ from rfl]
      dsimp only
      rw [(validateP_cycle_pair tcs n).1]

set_option maxRecDepth 8000 in
/-- C2: counter-evidence to the claim that intermediate recursive calls raise
nothing and one top-level exception combines every defect of the chain.  In
the chain `p → q` where `q` has neither typeclass nor parent (and the chain as
a whole has no typeclass, a defect charged to `p` as well), the exception is
raised *inside* the recursive call for `q` — because line 587's mis-passed
`_flags` gives that call a fresh accumulator at its own depth 0 — and its
message carries only `q`'s two errors: `p`'s "no typeclass in its parent
chain" error is never reported. -/
theorem C2_intermediate_call_raises_partial_errors :
    validateP []
      [("p", ⟨1, some "p", none, .str "q"⟩), ("q", ⟨2, some "q", none, .list []⟩)]
      5 ⟨1, some "p", none, .str "q"⟩ none true =
      .runtimeError ("Error: Prototype q requires `typeclass` or 'prototype_parent'.\nError: Prototype q has no `typeclass` defined anywhere in its parent chain. Add `typeclass`, or a `prototype_parent` pointing to a prototype with a typeclass.") ∧
    strContains ("Error: Prototype q requires `typeclass` or 'prototype_parent'.\nError: Prototype q has no `typeclass` defined anywhere in its parent chain. Add `typeclass`, or a `prototype_parent` pointing to a prototype with a typeclass.") "Prototype p" = false := by
  exact ⟨rfl, by decide⟩

/-- C5 counterexample: the claim promises a `PermissionError` for *every*
prototype_key whose lower-cased form is owned by a code module.  A module can
declare `prototype_key: ""` (the loader stores it under `""`), yet
`create_prototype(prototype_key="")` fails the truthiness test at line 285
first and raises `ValidationError("Prototype requires a prototype_key")`, not
`PermissionError`. -/
theorem C5_empty_module_key_counterexample :
    ((lookupStr
        ((loadModules [("mymod", [("GOBLIN", [("prototype_key", PyVal.str "")])])]).getD
          ⟨[], [], none⟩).registry
        (strLower (pyStr (.str "")))).isSome = true) ∧
    createPrototype (fun _ => none)
      ((loadModules [("mymod", [("GOBLIN", [("prototype_key", PyVal.str "")])])]).getD
        ⟨[], [], none⟩).registry
      ((loadModules [("mymod", [("GOBLIN", [("prototype_key", PyVal.str "")])])]).getD
        ⟨[], [], none⟩).moduleOf
      [] [("prototype_key", PyVal.str "")] =
      .error (.validationError "Prototype requires a prototype_key") ∧
    (∀ m, CrudErr.validationError "Prototype requires a prototype_key" ≠
      CrudErr.permissionError m) := by
  refine ⟨rfl, rfl, fun m h => ?_⟩
  exact CrudErr.noConfusion h

/-- C5 (amended): for every *truthy* prototype_key whose lower-cased string
form is owned by a code-declared prototype, `create_prototype` raises
`PermissionError` — with the module path looked up in
`_MODULE_PROTOTYPE_MODULES` — regardless of the other supplied attributes, and
the persisted store is untouched by the rejected call. -/
theorem C5_module_key_create_permission_error
    (lockErr : PyVal → Option String) (registry : List (String × PDict))
    (moduleOf : List (String × String)) (store : List DbRecord) (kwargs : PDict)
    (pkv : PyVal) (hget : pget kwargs "prototype_key" = some pkv)
    (htruthy : pyTruthy pkv = true)
    (hmod : (lookupStr registry (strLower (pyStr pkv))).isSome = true) :
    createPrototype lockErr registry moduleOf store kwargs =
      .error (.permissionError (strLower (pyStr pkv) ++
        " is a read-only prototype (defined as code in " ++
        (lookupStr moduleOf (strLower (pyStr pkv))).getD "N/A" ++ ").")) ∧
    storeAfterCreate lockErr registry moduleOf store kwargs = store := by
  have h1 : createPrototype lockErr registry moduleOf store kwargs =
      .error (.permissionError (strLower (pyStr pkv) ++
        " is a read-only prototype (defined as code in " ++
        (lookupStr moduleOf (strLower (pyStr pkv))).getD "N/A" ++ ").")) := by
    unfold createPrototype
    rw [hget]
    dsimp only
    simp only [htruthy, Bool.not_true, Bool.false_eq_true, if_false, hmod, if_true]
  refine ⟨h1, ?_⟩
  unfold storeAfterCreate
  rw [h1]

/-- Concrete instance of `C5_module_key_create_permission_error`: creating on
the module-owned key `"goblin"` (requested as `"Goblin"`) is rejected. -/
theorem C5_module_key_create_permission_error_witness :
    createPrototype (fun _ => none) [("goblin", [("prototype_key", PyVal.str "goblin")])]
      [("goblin", "mymod")] [] [("prototype_key", PyVal.str "Goblin"), ("a", PyVal.int 1)] =
      .error (.permissionError
        "goblin is a read-only prototype (defined as code in mymod).") ∧
    storeAfterCreate (fun _ => none) [("goblin", [("prototype_key", PyVal.str "goblin")])]
      [("goblin", "mymod")] [] [("prototype_key", PyVal.str "Goblin"), ("a", PyVal.int 1)] = [] :=
  C5_module_key_create_permission_error (fun _ => none)
    [("goblin", [("prototype_key", PyVal.str "goblin")])] [("goblin", "mymod")] []
    [("prototype_key", PyVal.str "Goblin"), ("a", PyVal.int 1)]
    (.str "Goblin") rfl rfl rfl

/-! # Store lemmas for the create/update round trip -/

/-- A record appended to a store holding no record for its key is the first
(and only) one `updateFirst` edits. -/
theorem updateFirst_append_fresh :
    ∀ (store : List DbRecord) (r : DbRecord) (pk : String) (p : PDict),
      store.filter (fun x => x.db_key == pk) = [] → r.db_key = pk →
      updateFirst (store ++ [r]) pk p [] = store ++ [{ r with prototype := p }]
  | [], r, pk, p, _, hr => by
    simp only [List.nil_append, updateFirst, hr, beq_self_eq_true, if_true,
      List.isEmpty_nil, Bool.not_true, Bool.false_eq_true, if_false]
  | s :: store, r, pk, p, hfresh, hr => by
    by_cases hc : (s.db_key == pk) = true
    · rw [List.filter_cons, if_pos hc] at hfresh
      exact absurd hfresh (by simp)
    · have hcond : (s.db_key == pk) = false := eq_false_of_ne_true hc
      rw [List.filter_cons, if_neg hc] at hfresh
      simp only [List.cons_append, updateFirst, hcond, Bool.false_eq_true, if_false,
        List.append_eq]
      rw [updateFirst_append_fresh store r pk p hfresh hr]

/-- `find?` distributes over an append whose first part has no match. -/
theorem find?_append_of_none {α : Type} (p : α → Bool) :
    ∀ (l₁ l₂ : List α), l₁.find? p = none → (l₁ ++ l₂).find? p = l₂.find? p
  | [], l₂, _ => rfl
  | a :: l₁, l₂, h => by
    rw [List.find?_cons] at h
    by_cases ha : p a = true
    · rw [ha] at h; exact absurd h (by simp)
    · have ha' : p a = false := eq_false_of_ne_true ha
      rw [ha'] at h
      simp only [List.cons_append, List.find?_cons, ha']
      exact find?_append_of_none p l₁ l₂ h

/-- An empty filter forces an empty `find?`. -/
theorem find?_eq_none_of_filter_nil {α : Type} {p : α → Bool} :
    ∀ {l : List α}, l.filter p = [] → l.find? p = none
  | [], _ => rfl
  | a :: l, h => by
    by_cases ha : p a = true
    · rw [List.filter_cons_of_pos ha] at h
      exact absurd h (by simp)
    · have ha' : p a = false := eq_false_of_ne_true ha
      rw [List.filter_cons_of_neg (by rw [ha']; exact Bool.false_ne_true)] at h
      rw [List.find?_cons, ha']
      exact find?_eq_none_of_filter_nil h

/-! # Uniqueness lemmas for exact-key search -/

/-- The claim's notion of "has prototype_key exactly equal to K". -/
def hasExactKey (d : PDict) (K : String) : Bool :=
  match pget d "prototype_key" with
  | some (.str s) => s == K
  | _ => false

/-- Two satisfying positions (one in each part) contradict a count of one. -/
theorem countP_append_ne_one {α : Type} {p : α → Bool} {l₁ l₂ : List α} {a b : α}
    (ha : a ∈ l₁) (hpa : p a = true) (hb : b ∈ l₂) (hpb : p b = true) :
    ¬ (l₁ ++ l₂).countP p = 1 := by
  intro h
  rw [List.countP_append] at h
  have h1 : 0 < l₁.countP p := List.countP_pos.mpr ⟨a, ha, hpa⟩
  have h2 : 0 < l₂.countP p := List.countP_pos.mpr ⟨b, hb, hpb⟩
  omega

/-- With duplicate-free images, filtering for a member's image yields exactly
that member. -/
theorem filter_eq_singleton_of_nodup {α : Type} {f : α → String} :
    ∀ {l : List α} {r : α} {K : String}, (l.map f).Nodup → r ∈ l → f r = K →
      l.filter (fun x => f x == K) = [r]
  | [], r, K, _, hr, _ => absurd hr (List.not_mem_nil r)
  | x :: l, r, K, hnd, hr, hfK => by
    rw [List.map_cons, List.nodup_cons] at hnd
    by_cases hx : (f x == K) = true
    · have hfx : f x = K := beq_iff_eq.mp hx
      rcases List.mem_cons.mp hr with rfl | hrl
      · rw [List.filter_cons, if_pos hx]
        have : l.filter (fun y => f y == K) = [] := by
          rw [List.filter_eq_nil_iff]
          intro y hy hyK
          exact hnd.1 (hfx ▸ (beq_iff_eq.mp hyK) ▸ List.mem_map_of_mem f hy)
        rw [this]
      · exact absurd (by rw [hfx, ← hfK]; exact List.mem_map_of_mem f hrl) hnd.1
    · have hxr : ¬ x = r := fun he => hx (beq_iff_eq.mpr (he ▸ hfK))
      have hrl : r ∈ l := (List.mem_cons.mp hr).resolve_left (fun he => hxr he.symm)
      rw [List.filter_cons, if_neg hx]
      exact filter_eq_singleton_of_nodup hnd.2 hrl hfK

/-- With duplicate-free keys, association lookup of a member's key yields its
value. -/
theorem lookupStr_eq_of_nodup {α : Type} :
    ∀ {l : List (String × α)} {K : String} {E : α},
      (l.map (fun kv => kv.1)).Nodup → (K, E) ∈ l → lookupStr l K = some E
  | [], K, E, _, hm => absurd hm (List.not_mem_nil (K, E))
  | kv :: l, K, E, hnd, hm => by
    rw [List.map_cons, List.nodup_cons] at hnd
    rcases List.mem_cons.mp hm with rfl | hml
    · unfold lookupStr
      have hf : List.find? (fun kv => kv.1 == K) ((K, E) :: l) = some (K, E) :=
        List.find?_cons_of_pos l (show ((K, E).1 == K) = true from beq_self_eq_true K)
      rw [hf]
      rfl
    · have hk : ¬ (((kv.1 == K) : Bool) = true) := by
        rw [beq_iff_eq]
        intro he
        exact hnd.1 (he ▸ List.mem_map_of_mem (fun kv => kv.1) hml)
      unfold lookupStr
      have hf : List.find? (fun kv => kv.1 == K) (kv :: l) =
          List.find? (fun kv => kv.1 == K) l :=
        List.find?_cons_of_neg l hk
      rw [hf]
      exact lookupStr_eq_of_nodup hnd.2 hml

/-- `lookupStr` is `none` when no key satisfies the query. -/
theorem lookupStr_eq_none {α : Type} {l : List (String × α)} {K : String}
    (h : ∀ kv ∈ l, ¬ kv.1 = K) : lookupStr l K = none := by
  unfold lookupStr
  rw [List.find?_eq_none.mpr (fun kv hkv => by
    simp only [beq_iff_eq]
    exact h kv hkv)]
  rfl

/-- A dict passing the deduplication filter for `K` has exactly key `K`. -/
theorem hasExactKey_of_dedupPred {m : PDict} {K : String}
    (h : dedupPred K m = true) : hasExactKey m K = true := by
  unfold dedupPred at h
  unfold hasExactKey
  cases hp : pget m "prototype_key" with
  | none => rw [hp] at h; exact absurd h (by simp)
  | some v =>
    rw [hp] at h
    cases v with
    | str s =>
      dsimp only at h ⊢
      simp only [Bool.and_eq_true] at h
      exact h.2
    | int n =>
      dsimp only at h
      simp only [Bool.and_eq_true] at h
      exact absurd h.2 (by simp)
    | callable fid =>
      dsimp only at h
      simp only [Bool.and_eq_true] at h
      exact absurd h.2 (by simp)
    | list vs =>
      dsimp only at h
      simp only [Bool.and_eq_true] at h
      exact absurd h.2 (by simp)
    | pydict kvs =>
      dsimp only at h
      simp only [Bool.and_eq_true] at h
      exact absurd h.2 (by simp)

/-- A dict whose `prototype_key` is the non-empty string `K` passes the
deduplication filter for `K`. -/
theorem dedupPred_of_pget {m : PDict} {K : String}
    (hp : pget m "prototype_key" = some (.str K)) (hK : (K == "") = false) :
    dedupPred K m = true := by
  unfold dedupPred
  rw [hp]
  simp only [pyTruthy, hK, Bool.not_false, beq_self_eq_true, Bool.and_self]

/-- A dict with `hasExactKey` holds key `K` literally. -/
theorem pget_of_hasExactKey {m : PDict} {K : String}
    (h : hasExactKey m K = true) : pget m "prototype_key" = some (.str K) := by
  unfold hasExactKey at h
  cases hp : pget m "prototype_key" with
  | none => rw [hp] at h; exact absurd h (by simp)
  | some v =>
    rw [hp] at h
    cases v with
    | str s =>
      dsimp only at h
      rw [beq_iff_eq.mp h]
    | int n => dsimp only at h; exact absurd h (by simp)
    | callable fid => dsimp only at h; exact absurd h (by simp)
    | list vs => dsimp only at h; exact absurd h (by simp)
    | pydict kvs => dsimp only at h; exact absurd h (by simp)

/-- `search_prototype(key=K)` with a truthy key and no tags, reduced to its
key-matching pipeline. -/
theorem searchPrototype_some_key (registry : List (String × PDict))
    (store : List DbRecord) (K : String) (hK : (K == "") = false) :
    searchPrototype registry store (some K) none =
      (if ((dbKeyMatches store K).map (fun r => r.prototype)
            ++ moduleKeyMatches registry K).length > 1 then
        dedupKey K ((dbKeyMatches store K).map (fun r => r.prototype)
          ++ moduleKeyMatches registry K)
      else
        (dbKeyMatches store K).map (fun r => r.prototype)
          ++ moduleKeyMatches registry K) := by
  unfold searchPrototype
  simp only [hK, Bool.false_eq_true, if_false]

/-- C4: creating a prototype under a non-module key with attribute `a = 1`,
then calling `create_prototype` again on the same key with attribute `b = 2`,
leaves one persisted record for the lower-cased key whose stored mapping
carries both `a = 1` and `b = 2`: the second call merges the incoming
attributes over the stored ones.  `lockErr` is the external lock validator
(assumed to accept, as it does the well-formed default lock string). -/
theorem C4_create_then_update_merges
    (lockErr : PyVal → Option String) (hlock : ∀ v, lockErr v = none)
    (registry : List (String × PDict)) (moduleOf : List (String × String))
    (store : List DbRecord) (k : String) (hk : ¬ k = "")
    (hmod : lookupStr registry (strLower k) = none)
    (hfresh : store.filter (fun r => r.db_key == strLower k) = []) :
    createPrototype lockErr registry moduleOf store
      [("prototype_key", .str k), ("a", .int 1)] =
      .ok (store ++ [⟨strLower k, [],
          [("prototype_key", .str k), ("a", .int 1), ("prototype_desc", .str ""),
           ("prototype_locks", .str "spawn:all();edit:perm(Admin)"),
           ("prototype_tags", .list [])]⟩],
        [("prototype_key", .str k), ("a", .int 1), ("prototype_desc", .str ""),
         ("prototype_locks", .str "spawn:all();edit:perm(Admin)"),
         ("prototype_tags", .list [])]) ∧
    createPrototype lockErr registry moduleOf
      (store ++ [⟨strLower k, [],
          [("prototype_key", .str k), ("a", .int 1), ("prototype_desc", .str ""),
           ("prototype_locks", .str "spawn:all();edit:perm(Admin)"),
           ("prototype_tags", .list [])]⟩])
      [("prototype_key", .str k), ("b", .int 2)] =
      .ok (store ++ [⟨strLower k, [],
          [("a", .int 1), ("prototype_key", .str k), ("b", .int 2),
           ("prototype_desc", .str ""),
           ("prototype_locks", .str "spawn:all();edit:perm(Admin)"),
           ("prototype_tags", .list [])]⟩],
        [("a", .int 1), ("prototype_key", .str k), ("b", .int 2),
         ("prototype_desc", .str ""),
         ("prototype_locks", .str "spawn:all();edit:perm(Admin)"),
         ("prototype_tags", .list [])]) ∧
    pget [("a", .int 1), ("prototype_key", .str k), ("b", .int 2),
         ("prototype_desc", .str ""),
         ("prototype_locks", .str "spawn:all();edit:perm(Admin)"),
         ("prototype_tags", .list [])] "a" = some (.int 1) ∧
    pget [("a", .int 1), ("prototype_key", .str k), ("b", .int 2),
         ("prototype_desc", .str ""),
         ("prototype_locks", .str "spawn:all();edit:perm(Admin)"),
         ("prototype_tags", .list [])] "b" = some (.int 2) ∧
    ((store ++ [(⟨strLower k, [],
        [("a", PyVal.int 1), ("prototype_key", PyVal.str k), ("b", PyVal.int 2),
         ("prototype_desc", PyVal.str ""),
         ("prototype_locks", PyVal.str "spawn:all();edit:perm(Admin)"),
         ("prototype_tags", PyVal.list [])]⟩ : DbRecord)]).find?
      (fun r => r.db_key == strLower k)).map (fun r => r.prototype) =
      some [("a", PyVal.int 1), ("prototype_key", PyVal.str k), ("b", PyVal.int 2),
         ("prototype_desc", PyVal.str ""),
         ("prototype_locks", PyVal.str "spawn:all();edit:perm(Admin)"),
         ("prototype_tags", PyVal.list [])] := by
  have hkb : (k == "") = false := beq_eq_false_iff_ne.mpr hk
  refine ⟨?_, ?_, rfl, rfl, ?_⟩
  · unfold createPrototype
    rw [show pget [("prototype_key", PyVal.str k), ("a", PyVal.int 1)] "prototype_key" =
      some (.str k) from rfl]
    dsimp only
    simp only [pyTruthy, hkb, Bool.not_false, Bool.true_eq_false, if_false, pyStr]
    rw [hmod]
    simp only [Option.isSome_none, Bool.false_eq_true, if_false]
    rw [hfresh]
    rw [hlock _]
    rfl
  · unfold createPrototype
    rw [show pget [("prototype_key", PyVal.str k), ("b", PyVal.int 2)] "prototype_key" =
      some (.str k) from rfl]
    dsimp only
    simp only [pyTruthy, hkb, Bool.not_false, Bool.true_eq_false, if_false, pyStr]
    rw [hmod]
    simp only [Option.isSome_none, Bool.false_eq_true, if_false]
    rw [List.filter_append, hfresh]
    simp only [List.nil_append, List.filter_cons, beq_self_eq_true, if_true,
      List.filter_nil]
    rw [hlock _]
    dsimp only
    rw [show tagsFor [("prototype_key", PyVal.str k), ("b", PyVal.int 2)]
        [("prototype_key", PyVal.str k), ("a", PyVal.int 1), ("prototype_desc", PyVal.str ""),
         ("prototype_locks", PyVal.str "spawn:all();edit:perm(Admin)"),
         ("prototype_tags", PyVal.list [])] = [] from rfl]
    rw [updateFirst_append_fresh store _ (strLower k) _ hfresh rfl]
    rfl
  · rw [find?_append_of_none _ store _ (find?_eq_none_of_filter_nil hfresh)]
    simp [List.find?_cons]

/-- Concrete instance of `C4_create_then_update_merges` at key `"k"` over the
empty store. -/
theorem C4_create_then_update_merges_witness :
    createPrototype (fun _ => none) [] [] []
      [("prototype_key", .str "k"), ("a", .int 1)] =
      .ok ([⟨"k", [],
          [("prototype_key", .str "k"), ("a", .int 1), ("prototype_desc", .str ""),
           ("prototype_locks", .str "spawn:all();edit:perm(Admin)"),
           ("prototype_tags", .list [])]⟩],
        [("prototype_key", .str "k"), ("a", .int 1), ("prototype_desc", .str ""),
         ("prototype_locks", .str "spawn:all();edit:perm(Admin)"),
         ("prototype_tags", .list [])]) ∧
    createPrototype (fun _ => none) [] []
      [⟨"k", [],
          [("prototype_key", .str "k"), ("a", .int 1), ("prototype_desc", .str ""),
           ("prototype_locks", .str "spawn:all();edit:perm(Admin)"),
           ("prototype_tags", .list [])]⟩]
      [("prototype_key", .str "k"), ("b", .int 2)] =
      .ok ([⟨"k", [],
          [("a", .int 1), ("prototype_key", .str "k"), ("b", .int 2),
           ("prototype_desc", .str ""),
           ("prototype_locks", .str "spawn:all();edit:perm(Admin)"),
           ("prototype_tags", .list [])]⟩],
        [("a", .int 1), ("prototype_key", .str "k"), ("b", .int 2),
         ("prototype_desc", .str ""),
         ("prototype_locks", .str "spawn:all();edit:perm(Admin)"),
         ("prototype_tags", .list [])]) := by
  have h := C4_create_then_update_merges (fun _ => none) (fun v => rfl) [] [] []
    "k" (by decide) rfl rfl
  exact ⟨h.1, h.2.1⟩

/-- C3 counterexample: the claim quantifies over every key `K` with exactly
one exact owner.  Take two persisted prototypes stored (as `create_prototype`
stores them) under `db_key`s `"goblin"` and `"goblins"`, with stored
`prototype_key`s `"Goblin"` and `"goblins"`: exactly one prototype has
`prototype_key` exactly `"Goblin"`, yet `search_prototype(key="Goblin")`
returns both dicts — the case-sensitive exact `db_key` filter misses,
Django's case-insensitive containment fallback matches both, and the
deduplication step compares against the lower-cased key `"goblin"`, which
matches neither stored `prototype_key`. -/
theorem C3_mixed_case_counterexample :
    (([(⟨"goblin", [], [("prototype_key", PyVal.str "Goblin")]⟩ : DbRecord),
        ⟨"goblins", [], [("prototype_key", PyVal.str "goblins")]⟩].map
          (fun r => r.prototype)
      ++ ([] : List (String × PDict)).map (fun kv => kv.2)).countP
        (fun d => hasExactKey d "Goblin") = 1) ∧
    searchPrototype []
      [⟨"goblin", [], [("prototype_key", PyVal.str "Goblin")]⟩,
       ⟨"goblins", [], [("prototype_key", PyVal.str "goblins")]⟩]
      (some "Goblin") none =
      [[("prototype_key", PyVal.str "Goblin")],
       [("prototype_key", PyVal.str "goblins")]] ∧
    ([[("prototype_key", PyVal.str "Goblin")],
      [("prototype_key", PyVal.str "goblins")]] : List PDict).length ≠ 1 := by
  refine ⟨rfl, rfl, by decide⟩

/-- C3 (amended): for every *non-empty, lower-case* key `K` owned exactly
once — over a code-declared registry as the loader builds it (lower-cased
keys, each dict carrying its registry key, keys duplicate-free) and a
persisted store as `create_prototype` maintains it (each record keyed by the
lower-cased string form of its dict's `prototype_key`, `db_key`s
duplicate-free) — `search_prototype(key=K)` returns exactly the one exact
match, even when other prototypes' keys contain `K` as a proper substring. -/
theorem C3_exact_key_search_unique
    (registry : List (String × PDict)) (store : List DbRecord)
    (K : String) (E : PDict)
    (hK1 : ¬ K = "") (hK2 : strLower K = K)
    (hreg : ∀ kv ∈ registry, pget kv.2 "prototype_key" = some (.str kv.1))
    (hregnd : (registry.map (fun kv => kv.1)).Nodup)
    (hstore : ∀ r ∈ store, ∃ v, pget r.prototype "prototype_key" = some v ∧
      r.db_key = strLower (pyStr v))
    (hnd : (store.map (fun r => r.db_key)).Nodup)
    (hE : E ∈ store.map (fun r => r.prototype) ++ registry.map (fun kv => kv.2))
    (hEK : hasExactKey E K = true)
    (huniq : (store.map (fun r => r.prototype)
      ++ registry.map (fun kv => kv.2)).countP (fun d => hasExactKey d K) = 1) :
    searchPrototype registry store (some K) none = [E] := by
  have hKb : (K == "") = false := beq_eq_false_iff_ne.mpr hK1
  have hpE : pget E "prototype_key" = some (.str K) := pget_of_hasExactKey hEK
  have hPE : dedupPred K E = true := dedupPred_of_pget hpE hKb
  rw [searchPrototype_some_key registry store K hKb]
  rcases List.mem_append.mp hE with hEdb | hEmod
  · -- E is a persisted prototype
    rcases List.mem_map.mp hEdb with ⟨r, hr, hrE⟩
    rcases hstore r hr with ⟨v, hv, hvk⟩
    have hvK : v = .str K := by
      rw [hrE] at hv
      exact Option.some.injEq _ _ ▸ (hv.symm.trans hpE)
    have hrK : r.db_key = K := by
      rw [hvk, hvK]
      show strLower (pyStr (.str K)) = K
      rw [show pyStr (.str K) = K from rfl, hK2]
    have hexact : store.filter (fun x => x.db_key == K) = [r] :=
      filter_eq_singleton_of_nodup hnd hr hrK
    have hdbm : dbKeyMatches store K = [r] := by
      unfold dbKeyMatches
      rw [hexact]
      rfl
    -- K is not a code-declared key: a registry dict with key K would be a second exact hit
    have hnotreg : ∀ kv ∈ registry, ¬ kv.1 = K := by
      intro kv hkv he
      have hx : hasExactKey kv.2 K = true := by
        unfold hasExactKey
        rw [hreg kv hkv, he]
        exact beq_self_eq_true K
      exact countP_append_ne_one (List.mem_map_of_mem _ hr)
        (by rw [hrE]; exact hEK) (List.mem_map_of_mem _ hkv) hx huniq
    have hlook : lookupStr registry K = none := lookupStr_eq_none hnotreg
    have hmodm : moduleKeyMatches registry K =
        (registry.filter (fun kp => strContains kp.1 K)).map (fun kv => kv.2) := by
      unfold moduleKeyMatches
      rw [hlook]
    have hone : [r].map (fun x => x.prototype) = [E] := by
      rw [List.map_cons, List.map_nil, hrE]
    rw [hdbm, hmodm, hone]
    have hfuzzP : ∀ d ∈ (registry.filter (fun kp => strContains kp.1 K)).map
        (fun kv => kv.2), ¬ dedupPred K d = true := by
      intro d hd hdp
      rcases List.mem_map.mp hd with ⟨kv, hkvf, rfl⟩
      have hkv : kv ∈ registry := List.mem_of_mem_filter hkvf
      have := pget_of_hasExactKey (hasExactKey_of_dedupPred hdp)
      rw [hreg kv hkv] at this
      exact hnotreg kv hkv (by injection this with h2; injection h2)
    cases hfz : (registry.filter (fun kp => strContains kp.1 K)).map (fun kv => kv.2) with
    | nil => rfl
    | cons f fs =>
      have hlen : ([E] ++ f :: fs).length > 1 := by
        simp [List.length_append]
      rw [if_pos hlen]
      unfold dedupKey
      rw [hK2]
      have hfm : ([E] ++ f :: fs).filter (dedupPred K) = [E] := by
        rw [List.filter_append]
        rw [List.filter_cons, if_pos hPE, List.filter_nil]
        rw [List.filter_eq_nil_iff.mpr (fun a ha => hfuzzP a (hfz ▸ ha))]
        rfl
      simp only [hfm]
      simp [List.length_append]
  · -- E is a code-declared prototype
    rcases List.mem_map.mp hEmod with ⟨kv, hkv, hkvE⟩
    have hk1 : kv.1 = K := by
      have h2 := hreg kv hkv
      rw [hkvE] at h2
      have h3 := h2.symm.trans hpE
      injection h3 with h4
      injection h4
    have hmem : (K, E) ∈ registry := by
      obtain ⟨a, b⟩ := kv
      dsimp only at hk1 hkvE
      rw [← hk1, ← hkvE]
      exact hkv
    have hlook : lookupStr registry K = some E := lookupStr_eq_of_nodup hregnd hmem
    have hmodm : moduleKeyMatches registry K = [E] := by
      unfold moduleKeyMatches
      rw [hlook]
    rw [hmodm]
    cases hex : store.filter (fun x => x.db_key == K) with
    | cons r rs =>
      have hrin : r ∈ store.filter (fun x => x.db_key == K) := by
        rw [hex]
        exact List.mem_cons_self r rs
      have hrmem : r ∈ store := List.mem_of_mem_filter hrin
      have hrK : r.db_key = K := beq_iff_eq.mp (List.mem_filter.mp hrin).2
      have hex1 : store.filter (fun x => x.db_key == K) = [r] :=
        filter_eq_singleton_of_nodup hnd hrmem hrK
      have hdbm : dbKeyMatches store K = [r] := by
        unfold dbKeyMatches
        rw [hex1]
        rfl
      rw [hdbm]
      have hrP : ¬ dedupPred K r.prototype = true := by
        intro hdp
        have hmem1 : r.prototype ∈ store.map (fun x => x.prototype) :=
          List.mem_map_of_mem _ hrmem
        have hx1 : hasExactKey r.prototype K = true := hasExactKey_of_dedupPred hdp
        have hmem2 : E ∈ registry.map (fun x => x.2) := by
          rw [← hkvE]
          exact List.mem_map_of_mem _ hkv
        exact countP_append_ne_one hmem1 hx1 hmem2 hEK huniq
      have hlen : (([r].map (fun x => x.prototype)) ++ [E]).length > 1 := by simp
      rw [if_pos hlen]
      unfold dedupKey
      rw [hK2]
      have hfm : (([r].map (fun x => x.prototype)) ++ [E]).filter (dedupPred K) = [E] := by
        rw [List.map_cons, List.map_nil, List.filter_append, List.filter_cons,
          if_neg hrP, List.filter_nil, List.filter_cons, if_pos hPE, List.filter_nil]
        rfl
      simp only [hfm]
      simp
    | nil =>
      have hdbm : dbKeyMatches store K =
          store.filter (fun r => strContains (strLower r.db_key) (strLower K)) := by
        unfold dbKeyMatches
        rw [hex]
        rfl
      rw [hdbm]
      have hdbP : ∀ d ∈ (store.filter
          (fun r => strContains (strLower r.db_key) (strLower K))).map
          (fun x => x.prototype), ¬ dedupPred K d = true := by
        intro d hd hdp
        rcases List.mem_map.mp hd with ⟨r1, hr1f, rfl⟩
        have hr1 : r1 ∈ store := List.mem_of_mem_filter hr1f
        have hpr := pget_of_hasExactKey (hasExactKey_of_dedupPred hdp)
        rcases hstore r1 hr1 with ⟨v, hv, hvk⟩
        have hvK : v = .str K := by
          have h5 := hv.symm.trans hpr
          injection h5
        have hr1K : r1.db_key = K := by
          rw [hvk, hvK]
          show strLower (pyStr (.str K)) = K
          rw [show pyStr (.str K) = K from rfl, hK2]
        have : r1 ∈ store.filter (fun x => x.db_key == K) :=
          List.mem_filter.mpr ⟨hr1, beq_iff_eq.mpr hr1K⟩
        rw [hex] at this
        exact absurd this (List.not_mem_nil r1)
      cases hfz : (store.filter
          (fun r => strContains (strLower r.db_key) (strLower K))).map
          (fun x => x.prototype) with
      | nil => rfl
      | cons d ds =>
        have hlen : ((d :: ds) ++ [E]).length > 1 := by simp
        rw [if_pos hlen]
        unfold dedupKey
        rw [hK2]
        have hfm : ((d :: ds) ++ [E]).filter (dedupPred K) = [E] := by
          rw [List.filter_append]
          rw [List.filter_eq_nil_iff.mpr (fun a ha => hdbP a (hfz ▸ ha))]
          rw [List.filter_cons, if_pos hPE, List.filter_nil]
          rfl
        simp only [hfm]
        simp

/-- Concrete instance of `C3_exact_key_search_unique`: the exact persisted
`"goblin"` is the single result even though the code-declared
`"goblin_elite"` contains the key as a substring. -/
theorem C3_exact_key_search_unique_witness :
    searchPrototype [("goblin_elite", [("prototype_key", PyVal.str "goblin_elite")])]
      [⟨"goblin", [], [("prototype_key", PyVal.str "goblin")]⟩]
      (some "goblin") none = [[("prototype_key", PyVal.str "goblin")]] :=
  C3_exact_key_search_unique
    [("goblin_elite", [("prototype_key", PyVal.str "goblin_elite")])]
    [⟨"goblin", [], [("prototype_key", PyVal.str "goblin")]⟩]
    "goblin" [("prototype_key", PyVal.str "goblin")]
    (by decide) rfl
    (by intro kv hkv; rw [List.mem_singleton.mp hkv]; rfl)
    (by decide)
    (by
      intro r hr
      rw [List.mem_singleton.mp hr]
      exact ⟨PyVal.str "goblin", rfl, rfl⟩)
    (by decide)
    (by simp)
    rfl rfl

/-- C6: counter-evidence.  `delete_prototype(key, caller)` never reads its
`key` parameter — every reference in its body is to the undefined name
`prototype_key` (the loader's leaked loop variable), so its outcome is
invariant under changing the requested key; and in a process where no module
prototype was iterated the leaked name is undefined and the call raises
`NameError`, never the claimed `PermissionError`.  With a caller supplied and
a record found (for the *leaked* key), the lock check is called on the
queryset, which lacks `.access`: `AttributeError`, again not
`PermissionError`. -/
theorem C6_delete_ignores_key :
    (∀ (g : Globals) (store : List DbRecord) (k1 k2 : String) (caller : Option Unit),
      deletePrototype g store k1 caller = deletePrototype g store k2 caller) ∧
    (loadModules [] = some ⟨[], [], none⟩) ∧
    (deletePrototype ⟨[], [], none⟩ [] "missing" none = .nameError) ∧
    (loadModules [("m", [("k", [])])] = some ⟨[], [], some "k"⟩) ∧
    (deletePrototype ⟨[], [], some "k"⟩ [⟨"k", [], [("prototype_key", PyVal.str "k")]⟩]
      "other" (some ()) = .attributeError) := by
  exact ⟨fun g store k1 k2 caller => rfl, rfl, rfl, rfl, rfl⟩

/-- Concrete instance of `C10_module_key_match_case_sensitive`: the module
prototype registered as `"goblin"` is not found by the mixed-case query
`"Goblin"`. -/
theorem C10_module_key_match_case_sensitive_witness :
    moduleKeyMatches
      ((loadModules [("mymod", [("GOBLIN", [("prototype_key", .str "Goblin")])])]).getD
        ⟨[], [], none⟩).registry "Goblin" = [] :=
  C10_module_key_match_case_sensitive
    [("mymod", [("GOBLIN", [("prototype_key", .str "Goblin")])])] _ "Goblin"
    rfl (by decide)

end EvenniaProto
